import Mathlib

/-!
Shallow embedding of the 0xJam3z-Toolkit web-scanner pipeline
(src/0xjam3z-webscanner/main.cpp) together with proofs checking the
natural-language specification against the code.

Strings from the C++ side are modelled as Lean `String` / `List Char`
(the tool operates on ASCII byte text).  File-system effects are made
explicit: functions that read or write files take the file contents and
the success of each `open` as parameters and return the data they would
have written.
-/

namespace WebScanner

/-- `isspace` in the default C locale: space, tab, newline, vertical tab,
form feed, carriage return. Used by `trim`, `split_ws` and the `\s` regex
class. -/
def isSpaceC (c : Char) : Bool :=
  c == ' ' || c == '\t' || c == '\n' || c == '\x0b' || c == '\x0c' || c == '\r'

/-- `isdigit`: ASCII decimal digit. -/
def isDigitC (c : Char) : Bool :=
  '0' ≤ c && c ≤ '9'

/-- `std::tolower` in the default C locale, on one character:
lowers only A-Z. -/
def to_lowerC (c : Char) : Char :=
  if 'A' ≤ c ∧ c ≤ 'Z' then Char.ofNat (c.toNat + 32) else c

/-- `to_lower` from the source: lowercases every character of the string. -/
def to_lower (s : String) : String :=
  String.mk (s.data.map to_lowerC)

/-- `trim` from the source: drop `isspace` characters from both ends. -/
def trim (s : String) : String :=
  String.mk (((s.data.dropWhile isSpaceC).reverse.dropWhile isSpaceC).reverse)

/-- `std::stoi` restricted to the all-digit strings on which the source
calls it: decimal value of a digit string. -/
def stoi_digits (p : List Char) : Nat :=
  p.foldl (fun acc c => acc * 10 + (c.toNat - '0'.toNat)) 0

/-- Worker for `getline_split`: accumulates the current token (reversed).
On a delimiter with nothing left afterwards the scan stops, matching
`std::getline`, which fails on the immediately following call at EOF and
therefore yields no empty final token after a trailing delimiter. -/
def getline_go (d : Char) : List Char → List Char → List (List Char)
  | [], acc => [acc.reverse]
  | c :: rest, acc =>
    if c == d then
      match rest with
      | [] => [acc.reverse]
      | _ :: _ => acc.reverse :: getline_go d rest []
    else
      getline_go d rest (c :: acc)

/-- The token sequence produced by the source's
`while (std::getline(iss, part, d))` loop over a string. -/
def getline_split (d : Char) (cs : List Char) : List (List Char) :=
  match cs with
  | [] => []
  | _ :: _ => getline_go d cs []

/-- The per-part loop body of `is_ipv4`, with the running `parts` counter:
reject empty or over-long parts, non-digit characters, and values above
255 (`std::stoi` of a 1-3 digit string is never negative); at the end the
address is valid iff exactly 4 parts were seen. -/
def is_ipv4_loop : List (List Char) → Nat → Bool
  | [], n => n == 4
  | p :: rest, n =>
    if p = [] ∨ p.length > 3 then false
    else if ¬ (p.all isDigitC = true) then false
    else if stoi_digits p > 255 then false
    else is_ipv4_loop rest (n + 1)

/-- `is_ipv4` from the source: reject any string containing `:`,
otherwise split on `.` with `std::getline` and validate each part. -/
def is_ipv4 (ip : String) : Bool :=
  if ip.data.contains ':' then false
  else is_ipv4_loop (getline_split '.' ip.data) 0

/-- The IPv4 validator contract as the specification words it: no `:`,
exactly 4 non-empty segments of 1-3 ASCII digits, each in `[0,255]`. -/
def ipv4_spec (s : String) : Prop :=
  s.data.contains ':' = false ∧
  (getline_split '.' s.data).length = 4 ∧
  ∀ p ∈ getline_split '.' s.data,
    p ≠ [] ∧ 1 ≤ p.length ∧ p.length ≤ 3 ∧ p.all isDigitC = true ∧ stoi_digits p ≤ 255

/-- A segment acceptable to the per-part checks of `is_ipv4`. -/
def seg_ok (s : String) : Prop :=
  s.data ≠ [] ∧ s.data.length ≤ 3 ∧ s.data.all isDigitC = true ∧ stoi_digits s.data ≤ 255

theorem is_ipv4_loop_cons (p : List Char) (rest : List (List Char)) (n : Nat) :
    is_ipv4_loop (p :: rest) n =
      if p ≠ [] ∧ p.length ≤ 3 ∧ p.all isDigitC = true ∧ stoi_digits p ≤ 255 then
        is_ipv4_loop rest (n + 1)
      else false := by
  simp only [is_ipv4_loop]
  by_cases hC : p ≠ [] ∧ p.length ≤ 3 ∧ p.all isDigitC = true ∧ stoi_digits p ≤ 255
  · obtain ⟨e1, e2, e3, e4⟩ := hC
    have n1 : ¬(p = [] ∨ p.length > 3) := by
      rintro (h | h)
      · exact e1 h
      · omega
    have n3 : ¬(stoi_digits p > 255) := by omega
    rw [if_neg n1, if_neg (not_not_intro e3), if_neg n3, if_pos ⟨e1, e2, e3, e4⟩]
  · rw [if_neg hC]
    push_neg at hC
    by_cases c1 : p = [] ∨ p.length > 3
    · rw [if_pos c1]
    · rw [if_neg c1]
      push_neg at c1
      by_cases c2 : ¬(p.all isDigitC = true)
      · rw [if_pos c2]
      · rw [if_neg c2]
        have e3 := not_not.mp c2
        have hv : stoi_digits p > 255 := hC c1.1 c1.2 e3
        rw [if_pos hv]

theorem is_ipv4_loop_iff (parts : List (List Char)) : ∀ n : Nat,
    is_ipv4_loop parts n = true ↔
      ((∀ p ∈ parts, p ≠ [] ∧ p.length ≤ 3 ∧ p.all isDigitC = true ∧ stoi_digits p ≤ 255) ∧
        n + parts.length = 4) := by
  induction parts with
  | nil => intro n; simp [is_ipv4_loop]
  | cons p rest ih =>
    intro n
    rw [is_ipv4_loop_cons]
    split_ifs with hp
    · rw [ih]
      constructor
      · rintro ⟨h1, h2⟩
        refine ⟨fun q hq => ?_, ?_⟩
        · rcases List.mem_cons.mp hq with h | h
          · rw [h]; exact hp
          · exact h1 q h
        · simp only [List.length_cons]; omega
      · rintro ⟨h1, h2⟩
        refine ⟨fun q hq => h1 q (List.mem_cons_of_mem p hq), ?_⟩
        simp only [List.length_cons] at h2; omega
    · constructor
      · intro h; cases h
      · rintro ⟨hall, -⟩
        exact absurd (hall p (List.mem_cons_self p rest)) hp

theorem is_ipv4_iff_spec (s : String) : is_ipv4 s = true ↔ ipv4_spec s := by
  unfold is_ipv4 ipv4_spec
  cases hc : s.data.contains ':' with
  | true => simp [hc]
  | false =>
    simp only [hc, Bool.false_eq_true, if_false, eq_self_iff_true, true_and]
    rw [is_ipv4_loop_iff]
    constructor
    · rintro ⟨hall, hlen⟩
      refine ⟨by omega, fun p hp => ?_⟩
      rcases hall p hp with ⟨hne, h3, hd, hv⟩
      refine ⟨hne, ?_, h3, hd, hv⟩
      cases p with
      | nil => exact absurd rfl hne
      | cons c cs => simp
    · rintro ⟨hlen, hall⟩
      refine ⟨fun p hp => ?_, by omega⟩
      rcases hall p hp with ⟨hne, -, h3, hd, hv⟩
      exact ⟨hne, h3, hd, hv⟩

theorem getline_split_of_ne_nil (d : Char) (cs : List Char) (h : cs ≠ []) :
    getline_split d cs = getline_go d cs [] := by
  cases cs with
  | nil => exact absurd rfl h
  | cons c rest => rfl

theorem getline_go_append_delim (d : Char) (xs : List Char)
    (hxs : ∀ c ∈ xs, (c == d) = false) :
    ∀ (acc rest : List Char), rest ≠ [] →
      getline_go d (xs ++ d :: rest) acc = (acc.reverse ++ xs) :: getline_go d rest [] := by
  induction xs with
  | nil =>
    intro acc rest hrest
    cases rest with
    | nil => exact absurd rfl hrest
    | cons r rs => simp [getline_go]
  | cons x xs ih =>
    intro acc rest hrest
    have hx : (x == d) = false := hxs x (List.mem_cons_self x xs)
    have hxs' : ∀ c ∈ xs, (c == d) = false := fun c hc => hxs c (List.mem_cons_of_mem x hc)
    simp only [List.cons_append, getline_go, hx, Bool.false_eq_true, if_false,
      List.append_eq]
    rw [ih hxs' (x :: acc) rest hrest]
    simp

theorem getline_go_append_last (d : Char) (xs : List Char)
    (hxs : ∀ c ∈ xs, (c == d) = false) :
    ∀ acc : List Char, getline_go d (xs ++ [d]) acc = [acc.reverse ++ xs] := by
  induction xs with
  | nil => intro acc; simp [getline_go]
  | cons x xs ih =>
    intro acc
    have hx : (x == d) = false := hxs x (List.mem_cons_self x xs)
    have hxs' : ∀ c ∈ xs, (c == d) = false := fun c hc => hxs c (List.mem_cons_of_mem x hc)
    simp only [List.cons_append, getline_go, hx, Bool.false_eq_true, if_false,
      List.append_eq]
    rw [ih hxs' (x :: acc)]
    simp

theorem digit_not_dot {c : Char} (h : isDigitC c = true) : (c == '.') = false := by
  cases hb : c == '.' with
  | false => rfl
  | true =>
    rw [beq_iff_eq] at hb
    subst hb
    exact absurd h (by decide)

theorem digit_not_colon {c : Char} (h : isDigitC c = true) : c ≠ ':' := by
  intro hb
  subst hb
  exact absurd h (by decide)

theorem contains_eq_false_of_not_mem {l : List Char} {c : Char} (h : c ∉ l) :
    l.contains c = false := by
  rw [Bool.eq_false_iff]
  intro hc
  exact h (List.elem_iff.mp hc)

theorem string_data_append (a b : String) : (a ++ b).data = a.data ++ b.data := rfl

/-- Claim C7: `is_ipv4` returns false immediately on any string containing
`:`; otherwise it is true iff the `getline`-based split on `.` yields exactly
4 non-empty segments of 1-3 ASCII digits, each parsing to an integer in
`[0,255]`; it is total.  It is true on `"1.2.3.4"`, `"0.0.0.0"`,
`"255.255.255.255"` and false on `"1.2.3.4.5"`, `"1.2.3"`, `"1.2.3.256"`,
`"::1"`, `"1.2.3.a"`. -/
theorem claim_C7 :
    (∀ s : String, is_ipv4 s = true ↔ ipv4_spec s) ∧
    is_ipv4 "1.2.3.4" = true ∧ is_ipv4 "0.0.0.0" = true ∧
    is_ipv4 "255.255.255.255" = true ∧ is_ipv4 "1.2.3.4.5" = false ∧
    is_ipv4 "1.2.3" = false ∧ is_ipv4 "1.2.3.256" = false ∧
    is_ipv4 "::1" = false ∧ is_ipv4 "1.2.3.a" = false :=
  ⟨is_ipv4_iff_spec, by decide, by decide, by decide, by decide, by decide,
    by decide, by decide, by decide⟩

/-- Witness for claim C7 at the concrete input `"0.0.0.0"`. -/
theorem claim_C7_witness : is_ipv4 "0.0.0.0" = true :=
  (claim_C7.1 "0.0.0.0").mpr (by unfold ipv4_spec; decide)

/-- Claim C9: the validator accepts a single trailing dot (the
`getline`-based split yields no empty final segment), while a leading dot
gives an empty first segment and is rejected. -/
theorem claim_C9 :
    (∀ s1 s2 s3 s4 : String, seg_ok s1 → seg_ok s2 → seg_ok s3 → seg_ok s4 →
      is_ipv4 (s1 ++ "." ++ s2 ++ "." ++ s3 ++ "." ++ s4 ++ ".") = true) ∧
    is_ipv4 ".1.2.3.4" = false := by
  constructor
  · intro s1 s2 s3 s4 h1 h2 h3 h4
    obtain ⟨ne1, l1, d1, v1⟩ := h1
    obtain ⟨ne2, l2, d2, v2⟩ := h2
    obtain ⟨ne3, l3, d3, v3⟩ := h3
    obtain ⟨ne4, l4, d4, v4⟩ := h4
    have hdata : (s1 ++ "." ++ s2 ++ "." ++ s3 ++ "." ++ s4 ++ ".").data
        = s1.data ++ '.' :: (s2.data ++ '.' :: (s3.data ++ '.' :: (s4.data ++ ['.']))) := by
      simp [string_data_append]
    have hd1 : ∀ c ∈ s1.data, (c == '.') = false :=
      fun c hc => digit_not_dot (List.all_eq_true.mp d1 c hc)
    have hd2 : ∀ c ∈ s2.data, (c == '.') = false :=
      fun c hc => digit_not_dot (List.all_eq_true.mp d2 c hc)
    have hd3 : ∀ c ∈ s3.data, (c == '.') = false :=
      fun c hc => digit_not_dot (List.all_eq_true.mp d3 c hc)
    have hd4 : ∀ c ∈ s4.data, (c == '.') = false :=
      fun c hc => digit_not_dot (List.all_eq_true.mp d4 c hc)
    have hcolon : ':' ∉ (s1 ++ "." ++ s2 ++ "." ++ s3 ++ "." ++ s4 ++ ".").data := by
      rw [hdata]
      intro hmem
      simp only [List.mem_append, List.mem_cons] at hmem
      rcases hmem with h | h | h | h | h | h | h | h
      · exact digit_not_colon (List.all_eq_true.mp d1 ':' h) rfl
      · exact absurd h (by decide)
      · exact digit_not_colon (List.all_eq_true.mp d2 ':' h) rfl
      · exact absurd h (by decide)
      · exact digit_not_colon (List.all_eq_true.mp d3 ':' h) rfl
      · exact absurd h (by decide)
      · exact digit_not_colon (List.all_eq_true.mp d4 ':' h) rfl
      · exact absurd h (by decide)
    unfold is_ipv4
    rw [contains_eq_false_of_not_mem hcolon]
    simp only [Bool.false_eq_true, if_false]
    rw [hdata, getline_split_of_ne_nil '.' _ (by simp),
      getline_go_append_delim '.' s1.data hd1 [] _ (by simp),
      getline_go_append_delim '.' s2.data hd2 [] _ (by simp),
      getline_go_append_delim '.' s3.data hd3 [] _ (by simp),
      getline_go_append_last '.' s4.data hd4 []]
    simp only [List.reverse_nil, List.nil_append]
    rw [is_ipv4_loop_iff]
    refine ⟨?_, rfl⟩
    intro p hp
    simp only [List.mem_cons, List.not_mem_nil, or_false] at hp
    rcases hp with h | h | h | h
    · rw [h]; exact ⟨ne1, l1, d1, v1⟩
    · rw [h]; exact ⟨ne2, l2, d2, v2⟩
    · rw [h]; exact ⟨ne3, l3, d3, v3⟩
    · rw [h]; exact ⟨ne4, l4, d4, v4⟩
  · decide

/-- Witness for claim C9 at the concrete input `"1.2.3.4."`. -/
theorem claim_C9_witness :
    is_ipv4 ("1" ++ "." ++ "2" ++ "." ++ "3" ++ "." ++ "4" ++ ".") = true :=
  claim_C9.1 "1" "2" "3" "4" (by unfold seg_ok; decide) (by unfold seg_ok; decide)
    (by unfold seg_ok; decide) (by unfold seg_ok; decide)

/-! ### Scan-result splitting (`split_ws`, `parse_masscan_results`) -/

/-- Worker for `split_ws`: accumulates the current token (reversed);
whitespace ends a token, runs of whitespace produce nothing. -/
def split_ws_go : List Char → List Char → List String
  | [], acc => if acc = [] then [] else [String.mk acc.reverse]
  | c :: rest, acc =>
    if isSpaceC c then
      if acc = [] then split_ws_go rest []
      else String.mk acc.reverse :: split_ws_go rest []
    else split_ws_go rest (c :: acc)

/-- `split_ws` from the source: `std::istringstream >> token` splits a line
into maximal runs of non-whitespace characters. -/
def split_ws (line : String) : List String :=
  split_ws_go line.data []

/-- Result of `parse_masscan_results`: overall success flag and the IP
lines written to the port-80 and port-443 files. -/
structure MasscanResult where
  ok : Bool
  out80 : List String
  out443 : List String
  deriving DecidableEq, Repr

/-- The per-line body of the `parse_masscan_results` loop: a line with at
least 4 tokens, `token[0] == "open"`, `token[1] == "tcp"` routes `token[3]`
by `token[2]` being `"80"` or `"443"`; anything else writes nothing. -/
def masscan_step (line : String) : Option String × Option String :=
  match split_ws line with
  | t0 :: t1 :: t2 :: t3 :: _ =>
    if t0 = "open" ∧ t1 = "tcp" then
      if t2 = "80" then (some t3, none)
      else if t2 = "443" then (none, some t3)
      else (none, none)
    else (none, none)
  | _ => (none, none)

/-- The `while (std::getline(in, line))` loop of `parse_masscan_results`,
collecting the two output files in order. -/
def masscan_loop : List String → List String × List String
  | [] => ([], [])
  | line :: rest =>
    let r := masscan_loop rest
    match masscan_step line with
    | (some ip, _) => (ip :: r.1, r.2)
    | (none, some ip) => (r.1, ip :: r.2)
    | (none, none) => r

/-- `parse_masscan_results` from the source.  `inOpen`, `out80Open`,
`out443Open` model whether the three file opens succeed; `lines` is the
scanner output split into lines.  The function returns `true` whenever all
three files opened, regardless of how many hits were written. -/
def parse_masscan_results (inOpen out80Open out443Open : Bool)
    (lines : List String) : MasscanResult :=
  if inOpen = false then ⟨false, [], []⟩
  else if out80Open = false ∨ out443Open = false then ⟨false, [], []⟩
  else ⟨true, (masscan_loop lines).1, (masscan_loop lines).2⟩

/-- The routing rule for the port-80 file as the specification words it. -/
def masscan_claim_80 (line : String) : Option String :=
  let ts := split_ws line
  if 4 ≤ ts.length ∧ ts.getD 0 "" = "open" ∧ ts.getD 1 "" = "tcp" ∧ ts.getD 2 "" = "80" then
    some (ts.getD 3 "")
  else none

/-- The routing rule for the port-443 file as the specification words it. -/
def masscan_claim_443 (line : String) : Option String :=
  let ts := split_ws line
  if 4 ≤ ts.length ∧ ts.getD 0 "" = "open" ∧ ts.getD 1 "" = "tcp" ∧ ts.getD 2 "" = "443" then
    some (ts.getD 3 "")
  else none

theorem masscan_step_eq (line : String) :
    masscan_step line = (masscan_claim_80 line, masscan_claim_443 line) := by
  unfold masscan_step masscan_claim_80 masscan_claim_443
  rcases h : split_ws line with - | ⟨t0, - | ⟨t1, - | ⟨t2, - | ⟨t3, rest⟩⟩⟩⟩ <;>
    simp only [List.length_cons, List.length_nil, List.getD]
  · simp
  · simp
  · simp
  · simp
  · by_cases h0 : t0 = "open" <;> by_cases h1 : t1 = "tcp"
    · subst h0; subst h1
      by_cases h2 : t2 = "80"
      · subst h2; simp
      · by_cases h3 : t2 = "443"
        · subst h3; simp
        · simp [h2, h3]
    · simp [h0, h1]
    · simp [h0, h1]
    · simp [h0, h1]

theorem masscan_loop_eq (lines : List String) :
    masscan_loop lines = (lines.filterMap masscan_claim_80, lines.filterMap masscan_claim_443) := by
  induction lines with
  | nil => rfl
  | cons line rest ih =>
    simp only [masscan_loop, ih, masscan_step_eq, List.filterMap_cons]
    rcases h80 : masscan_claim_80 line with - | ip80 <;>
      rcases h443 : masscan_claim_443 line with - | ip443
    · rfl
    · rfl
    · rfl
    · exfalso
      unfold masscan_claim_80 at h80
      unfold masscan_claim_443 at h443
      by_cases hc : 4 ≤ (split_ws line).length ∧ (split_ws line).getD 0 "" = "open" ∧
          (split_ws line).getD 1 "" = "tcp" ∧ (split_ws line).getD 2 "" = "80"
      · rw [if_pos hc] at h80
        have : ¬ ((split_ws line).getD 2 "" = "443") := by
          rw [hc.2.2.2]; decide
        rw [if_neg (by tauto)] at h443
        cases h443
      · rw [if_neg hc] at h80
        cases h80

/-- Claim C2: when the scanner output and both destination files open,
`parse_masscan_results` writes `token[3]` of a line to the port-80 file iff
the whitespace-split line has at least 4 tokens with `token[0] == "open"`,
`token[1] == "tcp"`, `token[2] == "80"`, and to the port-443 file iff the
same holds with `token[2] == "443"`; every other line contributes nothing,
nothing is fatal, and the function succeeds even with zero hits.  The
four-line example yields exactly `1.1.1.1` and `2.2.2.2`. -/
theorem claim_C2 :
    (∀ (inOpen out80Open out443Open : Bool) (lines : List String),
      inOpen = true → out80Open = true → out443Open = true →
      parse_masscan_results inOpen out80Open out443Open lines =
        ⟨true, lines.filterMap masscan_claim_80, lines.filterMap masscan_claim_443⟩) ∧
    parse_masscan_results true true true
        ["open tcp 80 1.1.1.1", "open tcp 443 2.2.2.2",
         "closed tcp 22 3.3.3.3", "open udp 80 4.4.4.4"] =
      ⟨true, ["1.1.1.1"], ["2.2.2.2"]⟩ := by
  constructor
  · intro inOpen out80Open out443Open lines h1 h2 h3
    subst h1; subst h2; subst h3
    unfold parse_masscan_results
    simp [masscan_loop_eq]
  · decide

/-- Witness for claim C2: the general routing equation applied to a
concrete two-line input, with zero port-443 hits. -/
theorem claim_C2_witness :
    parse_masscan_results true true true ["open tcp 80 5.5.5.5", "junk"] =
      ⟨true, ["5.5.5.5"], []⟩ := by
  rw [claim_C2.1 true true true ["open tcp 80 5.5.5.5", "junk"] rfl rfl rfl]
  decide

/-! ### JSON string unescaping (`unescape_json_string`) -/

/-- A hexadecimal digit as `std::hex` extraction accepts it. -/
def is_hex_digit (c : Char) : Bool :=
  isDigitC c || ('a' ≤ c && c ≤ 'f') || ('A' ≤ c && c ≤ 'F')

/-- Value of one hexadecimal digit. -/
def hex_digit_val (c : Char) : Nat :=
  if isDigitC c then c.toNat - '0'.toNat
  else if 'a' ≤ c ∧ c ≤ 'f' then c.toNat - 'a'.toNat + 10
  else if 'A' ≤ c ∧ c ≤ 'F' then c.toNat - 'A'.toNat + 10
  else 0

/-- Models `std::istringstream iss(hex); iss >> std::hex >> code;` on the
4-character substring: stream extraction skips leading whitespace, consumes
the maximal hex-digit prefix, and a failed extraction leaves `code` at its
initialised value 0. -/
def hex_stream_parse (cs : List Char) : Nat :=
  ((cs.dropWhile isSpaceC).takeWhile is_hex_digit).foldl
    (fun acc c => acc * 16 + hex_digit_val c) 0

/-- The `switch` body of `unescape_json_string` for a simple escape: the
character emitted for `\<n>` when `n` is not `u`; the default arm emits the
escaped character verbatim. -/
def esc_char (n : Char) : Char :=
  if n = '\\' then '\\'
  else if n = '"' then '"'
  else if n = '/' then '/'
  else if n = 'b' then '\x08'
  else if n = 'f' then '\x0c'
  else if n = 'n' then '\n'
  else if n = 'r' then '\r'
  else if n = 't' then '\t'
  else n

/-- The scanning loop of `unescape_json_string` over the character list.
A `\` with nothing after it is emitted literally; `\u` with fewer than 4
following characters emits nothing and resumes right after the `u`. -/
def unescape_chars : List Char → List Char
  | [] => []
  | c :: rest =>
    if c ≠ '\\' then c :: unescape_chars rest
    else
      match rest with
      | [] => [c]
      | 'u' :: h1 :: h2 :: h3 :: h4 :: rest3 =>
        (if hex_stream_parse [h1, h2, h3, h4] ≤ 0x7F then
          Char.ofNat (hex_stream_parse [h1, h2, h3, h4])
         else '?') :: unescape_chars rest3
      | 'u' :: rest2 => unescape_chars rest2
      | n :: rest2 => esc_char n :: unescape_chars rest2

/-- `unescape_json_string` from the source. -/
def unescape_json_string (s : String) : String :=
  String.mk (unescape_chars s.data)

theorem hex_not_space {c : Char} (h : is_hex_digit c = true) : isSpaceC c = false := by
  cases hs : isSpaceC c with
  | false => rfl
  | true =>
    exfalso
    simp only [isSpaceC, Bool.or_eq_true, beq_iff_eq] at hs
    rcases hs with ((((h1 | h1) | h1) | h1) | h1) | h1 <;>
      (subst h1; exact absurd h (by decide))

theorem hex_stream_parse_four {h1 h2 h3 h4 : Char}
    (e1 : is_hex_digit h1 = true) (e2 : is_hex_digit h2 = true)
    (e3 : is_hex_digit h3 = true) (e4 : is_hex_digit h4 = true) :
    hex_stream_parse [h1, h2, h3, h4] =
      4096 * hex_digit_val h1 + 256 * hex_digit_val h2 + 16 * hex_digit_val h3 +
        hex_digit_val h4 := by
  unfold hex_stream_parse
  rw [List.dropWhile_cons]
  simp only [hex_not_space e1, Bool.false_eq_true, if_false]
  rw [List.takeWhile_cons, List.takeWhile_cons, List.takeWhile_cons, List.takeWhile_cons]
  simp only [e1, e2, e3, e4, if_true, List.takeWhile_nil, List.foldl]
  ring

/-- Claim C5: `unescape_json_string` scans left to right; a trailing lone
backslash is emitted literally; `\\`, `\"`, `\/` emit that character;
`\b \f \n \r \t` emit their control characters; `\u` with 4 hex digits
emits the ASCII character when the code point is at most `0x7F` and `?`
otherwise; any other escape emits the escaped character verbatim.  In
particular the escaped form `a\nbA` decodes to `a`, newline, `bA`,
and `\q` decodes to `q`. -/
theorem claim_C5 :
    (∀ (c : Char) (cs : List Char), c ≠ '\\' →
      unescape_chars (c :: cs) = c :: unescape_chars cs) ∧
    unescape_chars ['\\'] = ['\\'] ∧
    (∀ cs, unescape_chars ('\\' :: '\\' :: cs) = '\\' :: unescape_chars cs) ∧
    (∀ cs, unescape_chars ('\\' :: '"' :: cs) = '"' :: unescape_chars cs) ∧
    (∀ cs, unescape_chars ('\\' :: '/' :: cs) = '/' :: unescape_chars cs) ∧
    (∀ cs, unescape_chars ('\\' :: 'b' :: cs) = '\x08' :: unescape_chars cs) ∧
    (∀ cs, unescape_chars ('\\' :: 'f' :: cs) = '\x0c' :: unescape_chars cs) ∧
    (∀ cs, unescape_chars ('\\' :: 'n' :: cs) = '\n' :: unescape_chars cs) ∧
    (∀ cs, unescape_chars ('\\' :: 'r' :: cs) = '\r' :: unescape_chars cs) ∧
    (∀ cs, unescape_chars ('\\' :: 't' :: cs) = '\t' :: unescape_chars cs) ∧
    (∀ (h1 h2 h3 h4 : Char) (cs : List Char),
      is_hex_digit h1 = true → is_hex_digit h2 = true →
      is_hex_digit h3 = true → is_hex_digit h4 = true →
      unescape_chars ('\\' :: 'u' :: h1 :: h2 :: h3 :: h4 :: cs) =
        (if 4096 * hex_digit_val h1 + 256 * hex_digit_val h2 + 16 * hex_digit_val h3 +
            hex_digit_val h4 ≤ 127 then
          Char.ofNat (4096 * hex_digit_val h1 + 256 * hex_digit_val h2 +
            16 * hex_digit_val h3 + hex_digit_val h4)
         else '?') :: unescape_chars cs) ∧
    (∀ (n : Char) (cs : List Char),
      n ∉ ['\\', '"', '/', 'b', 'f', 'n', 'r', 't', 'u'] →
      unescape_chars ('\\' :: n :: cs) = n :: unescape_chars cs) ∧
    unescape_json_string "a\\nb\\u0041" = "a\nbA" ∧
    unescape_json_string "\\q" = "q" := by
  refine ⟨?_, by decide, ?_, ?_, ?_, ?_, ?_, ?_, ?_, ?_, ?_, ?_, by decide, by decide⟩
  · intro c cs h
    cases cs with
    | nil => simp [unescape_chars, h]
    | cons c2 cs2 =>
      rw [unescape_chars.eq_def]
      simp only [h, ne_eq, not_false_eq_true, if_true]
  · intro cs; simp [unescape_chars, esc_char]
  · intro cs; simp [unescape_chars, esc_char]
  · intro cs; simp [unescape_chars, esc_char]
  · intro cs; simp [unescape_chars, esc_char]
  · intro cs; simp [unescape_chars, esc_char]
  · intro cs; simp [unescape_chars, esc_char]
  · intro cs; simp [unescape_chars, esc_char]
  · intro cs; simp [unescape_chars, esc_char]
  · intro h1 h2 h3 h4 cs e1 e2 e3 e4
    rw [unescape_chars.eq_3]
    rw [if_neg (by decide : ¬ (('\\' : Char) ≠ '\\'))]
    rw [hex_stream_parse_four e1 e2 e3 e4]
  · intro n cs h
    simp only [List.mem_cons, List.not_mem_nil, or_false, not_or] at h
    obtain ⟨e1, e2, e3, e4, e5, e6, e7, e8, e9⟩ := h
    rw [unescape_chars.eq_5 '\\' n cs (fun _ _ _ _ _ hu _ => e9 hu) (fun hu => e9 hu)]
    rw [if_neg (by decide : ¬ (('\\' : Char) ≠ '\\'))]
    simp [esc_char, e1, e2, e3, e4, e5, e6, e7, e8]

/-- Witness for claim C5: the hex-escape rule applied at `A`,
together with a simple-escape instance. -/
theorem claim_C5_witness : unescape_chars ['\\', 'u', '0', '0', '4', '1'] = ['A'] := by
  rw [claim_C5.2.2.2.2.2.2.2.2.2.2.1 '0' '0' '4' '1' []
    (by decide) (by decide) (by decide) (by decide)]
  decide

/-! ### Tolerant key-value extraction (the `std::regex` patterns)

The source extracts fields with the patterns
`\"<key>\"\s*:\s*\"([^\"]+)\"` (ASN extractor, via `sregex_iterator`)
and `<key>\s*:\s*\"((?:[^\\\"]|\\.)*)\"` (grab-record fields, via
`regex_search`).  Both patterns are deterministic: the captured group is
delimited by the next unescaped `"`, and when a candidate position fails,
backtracking cannot help because no shorter capture puts a `"` under the
cursor, so the engine moves on to the next start position.  The models
below implement exactly that scan. -/

/-- Capture of `([^"]+)` followed by the closing `"`: the characters up to
the next `"`; fails without a closing quote.  Emptiness of the capture is
checked at the use site. -/
def simple_value : List Char → Option (List Char × List Char)
  | [] => none
  | c :: rest =>
    if c = '"' then some ([], rest)
    else
      match simple_value rest with
      | none => none
      | some (v, rem) => some (c :: v, rem)

/-- Capture of `([^"]+)"`: like `simple_value` but the capture must be
non-empty (the `+`). -/
def plus_value (cs : List Char) : Option (List Char × List Char) :=
  match simple_value cs with
  | some ([], _) => none
  | some (v, rem) => some (v, rem)
  | none => none

/-- Capture of `((?:[^\\"]|\\.)*)"`: a sequence of non-quote-non-backslash
characters or backslash-escaped pairs, up to the closing `"`.  In
ECMAScript `.` does not match a line terminator, so a backslash followed
by CR or LF (or by nothing) kills the match at this position. -/
def esc_value : List Char → Option (List Char × List Char)
  | [] => none
  | c :: rest =>
    if c = '"' then some ([], rest)
    else if c = '\\' then
      match rest with
      | [] => none
      | c2 :: rest2 =>
        if c2 = '\n' ∨ c2 = '\r' then none
        else
          match esc_value rest2 with
          | none => none
          | some (v, rem) => some (c :: c2 :: v, rem)
    else
      match esc_value rest with
      | none => none
      | some (v, rem) => some (c :: v, rem)

/-- One attempt of `<key-literal>\s*:\s*"<value>` at the current position:
returns the captured value and the input after the full match. -/
def try_match (key : List Char)
    (valueP : List Char → Option (List Char × List Char))
    (cs : List Char) : Option (List Char × List Char) :=
  if key.isPrefixOf cs then
    match (cs.drop key.length).dropWhile isSpaceC with
    | ':' :: cs3 =>
      match cs3.dropWhile isSpaceC with
      | '"' :: cs5 => valueP cs5
      | _ => none
    | _ => none
  else none

/-- All matches in document order, as `std::sregex_iterator` yields them:
leftmost, non-overlapping, resuming after each match.  The fuel is the
input length; every step consumes at least one character. -/
def scan_all (key : List Char)
    (valueP : List Char → Option (List Char × List Char)) :
    Nat → List Char → List (List Char)
  | 0, _ => []
  | fuel + 1, cs =>
    match cs with
    | [] => []
    | _ :: rest =>
      match try_match key valueP cs with
      | some (v, rem) => v :: scan_all key valueP fuel rem
      | none => scan_all key valueP fuel rest

/-- The first match, as `std::regex_search` finds it. -/
def scan_first (key : List Char)
    (valueP : List Char → Option (List Char × List Char)) :
    Nat → List Char → Option (List Char)
  | 0, _ => none
  | fuel + 1, cs =>
    match cs with
    | [] => none
    | _ :: rest =>
      match try_match key valueP cs with
      | some (v, _) => some v
      | none => scan_first key valueP fuel rest

/-- The field extraction of `build_list_from_asn_json`: every capture of
`\"<key>\"\s*:\s*\"([^\"]+)\"` in document order.  `key` is the literal
text the escaped pattern matches, e.g. `"start_ip"` with its quotes. -/
def extract_all (content : String) (key : String) : List String :=
  (scan_all key.data plus_value content.data.length content.data).map
    (fun v => String.mk v)

/-- `extract_json_string_value` from the source: first match of
`<key>\s*:\s*\"((?:[^\\\"]|\\.)*)\"` in the line, unescaped.  `key` is the
literal text the escaped pattern matches, e.g. `"ip"` with its quotes. -/
def extract_json_string_value (line : String) (key : String) : Option String :=
  (scan_first key.data esc_value line.data.length line.data).map
    (fun v => unescape_json_string (String.mk v))

/-! ### ASN-range extraction (`build_list_from_asn_json`) -/

/-- Result of `build_list_from_asn_json`.  `openAttempted` records whether
control reached the truncating `std::ofstream` constructor on the list
path; `listFile` is the content of the list file afterwards (`prior` when
it was never truncated). -/
structure AsnResult where
  ok : Bool
  count : Nat
  lines : List String
  openAttempted : Bool
  listFile : String
  deriving DecidableEq, Repr

/-- One iteration of the emission loop of `build_list_from_asn_json`:
the two `continue` guards for the country filter, then the IPv4 check. -/
def asn_step (ends countries : List String) (filter : String)
    (s : String) (i : Nat) : Option String :=
  if filter ≠ "" ∧ countries.length ≤ i then none
  else if filter ≠ "" ∧ to_lower (countries.getD i "") ≠ to_lower filter then none
  else if is_ipv4 s = true ∧ is_ipv4 (ends.getD i "") = true then
    some (s ++ "-" ++ ends.getD i "")
  else none

/-- The emission loop (`for i in 0..starts.size()`), walking `starts` with
the running index. -/
def asn_loop (ends countries : List String) (filter : String) :
    List String → Nat → List String
  | [], _ => []
  | s :: srest, i =>
    match asn_step ends countries filter s i with
    | some line => line :: asn_loop ends countries filter srest (i + 1)
    | none => asn_loop ends countries filter srest (i + 1)

/-- Rendered content of the list file: one `<start>-<end>` line each. -/
def joinLines (lines : List String) : String :=
  String.join (lines.map (fun l => l ++ "\n"))

/-- `build_list_from_asn_json` from the source.  `inOpen`/`outOpen` model
whether the JSON input and the list output open successfully; `content`
is the whole JSON document; `prior` is the list file's previous content. -/
def build_list_from_asn_json (inOpen : Bool) (content : String)
    (outOpen : Bool) (prior : String) (filter : String) : AsnResult :=
  if inOpen = false then ⟨false, 0, [], false, prior⟩
  else
    let starts := extract_all content "\"start_ip\""
    let ends := extract_all content "\"end_ip\""
    let countries := extract_all content "\"country_name\""
    if starts = [] ∨ ends = [] ∨ starts.length ≠ ends.length then
      ⟨false, 0, [], false, prior⟩
    else if outOpen = false then ⟨false, 0, [], true, prior⟩
    else
      let lines := asn_loop ends countries filter starts 0
      ⟨decide (0 < lines.length), lines.length, lines, true, joinLines lines⟩

/-- The per-index emission rule as the specification words it: with a
filter set, the country sequence must have a case-insensitively matching
entry at index `i`, and both endpoints must pass the IPv4 validator. -/
def asn_claim_keep (starts ends countries : List String) (filter : String)
    (i : Nat) : Option String :=
  if (filter = "" ∨ (i < countries.length ∧
        to_lower (countries.getD i "") = to_lower filter))
      ∧ is_ipv4 (starts.getD i "") = true ∧ is_ipv4 (ends.getD i "") = true then
    some (starts.getD i "" ++ "-" ++ ends.getD i "")
  else none

theorem asn_step_eq (ends countries : List String) (filter s : String) (i : Nat) :
    asn_step ends countries filter s i =
      if (filter = "" ∨ (i < countries.length ∧
            to_lower (countries.getD i "") = to_lower filter))
          ∧ is_ipv4 s = true ∧ is_ipv4 (ends.getD i "") = true then
        some (s ++ "-" ++ ends.getD i "")
      else none := by
  unfold asn_step
  by_cases hf : filter = ""
  · simp [hf]
  · by_cases hlen : countries.length ≤ i
    · have hnlt : ¬ i < countries.length := by omega
      simp [hf, hlen, hnlt]
    · have hlt : i < countries.length := by omega
      rw [if_neg (fun h => hlen h.2)]
      by_cases hmatch : to_lower (countries.getD i "") = to_lower filter
      · rw [if_neg (fun h => h.2 hmatch)]
        have hA : filter = "" ∨ (i < countries.length ∧
            to_lower (countries.getD i "") = to_lower filter) := Or.inr ⟨hlt, hmatch⟩
        by_cases hB : is_ipv4 s = true ∧ is_ipv4 (ends.getD i "") = true
        · rw [if_pos hB, if_pos ⟨hA, hB⟩]
        · rw [if_neg hB, if_neg (fun h => hB h.2)]
      · rw [if_pos ⟨hf, hmatch⟩]
        rw [if_neg]
        rintro ⟨hA, -⟩
        rcases hA with h | h
        · exact hf h
        · exact hmatch h.2

theorem asn_claim_keep_eq (starts ends countries : List String)
    (filter : String) (i : Nat) :
    asn_claim_keep starts ends countries filter i =
      asn_step ends countries filter (starts.getD i "") i := by
  rw [asn_step_eq]
  rfl

theorem asn_loop_eq (ends countries : List String) (filter : String) :
    ∀ (starts : List String) (i : Nat),
      asn_loop ends countries filter starts i =
        (List.range starts.length).filterMap
          (fun k => asn_step ends countries filter (starts.getD k "") (i + k)) := by
  intro starts
  induction starts with
  | nil => intro i; rfl
  | cons s srest ih =>
    intro i
    have hfun : (fun k => asn_step ends countries filter
          ((s :: srest).getD (k + 1) "") (i + (k + 1)))
        = fun k => asn_step ends countries filter (srest.getD k "") ((i + 1) + k) := by
      funext k
      rw [List.getD_cons_succ]
      congr 1
      omega
    simp only [asn_loop, List.length_cons, List.range_succ_eq_map, List.filterMap_cons,
      List.filterMap_map, Function.comp_def, List.getD_cons_zero, Nat.add_zero]
    rw [hfun, ← ih (i + 1)]
    cases asn_step ends countries filter s i <;> rfl

/-- Reduction of `build_list_from_asn_json` on the successful-open,
valid-input path. -/
theorem build_list_from_asn_json_valid (content prior filter : String)
    (hne : extract_all content "\"start_ip\"" ≠ [])
    (hlen : (extract_all content "\"start_ip\"").length =
      (extract_all content "\"end_ip\"").length) :
    build_list_from_asn_json true content true prior filter =
      ⟨decide (0 < (asn_loop (extract_all content "\"end_ip\"")
          (extract_all content "\"country_name\"") filter
          (extract_all content "\"start_ip\"") 0).length),
        (asn_loop (extract_all content "\"end_ip\"")
          (extract_all content "\"country_name\"") filter
          (extract_all content "\"start_ip\"") 0).length,
        asn_loop (extract_all content "\"end_ip\"")
          (extract_all content "\"country_name\"") filter
          (extract_all content "\"start_ip\"") 0,
        true,
        joinLines (asn_loop (extract_all content "\"end_ip\"")
          (extract_all content "\"country_name\"") filter
          (extract_all content "\"start_ip\"") 0)⟩ := by
  have hends : extract_all content "\"end_ip\"" ≠ [] := by
    intro h
    rw [h, List.length_nil] at hlen
    exact hne (List.eq_nil_of_length_eq_zero hlen)
  simp only [build_list_from_asn_json]
  rw [if_neg (by decide : ¬(true = false)),
    if_neg (by push_neg; exact ⟨hne, hends, hlen⟩),
    if_neg (by decide : ¬(true = false))]

/-- Norway example document from the specification scenarios: three
records, exactly one with `country_name` Norway. -/
def norwayDoc : String :=
  "[\x7b\"start_ip\": \"1.1.1.0\", \"end_ip\": \"1.1.1.255\", " ++
    "\"country_name\": \"Sweden\"\x7d, " ++
  "\x7b\"start_ip\": \"2.2.2.0\", \"end_ip\": \"2.2.2.255\", " ++
    "\"country_name\": \"Norway\"\x7d, " ++
  "\x7b\"start_ip\": \"3.3.3.0\", \"end_ip\": \"3.3.3.255\", " ++
    "\"country_name\": \"Denmark\"\x7d]"

/-- Malformed document: a `start_ip` but no `end_ip`. -/
def mismatchDoc : String :=
  "\x7b\"start_ip\": \"1.2.3.4\"\x7d"

set_option maxRecDepth 100000 in
/-- Claim C1: on the writing path (both files open, validation passed),
`build_list_from_asn_json` writes, in document order, exactly one line
`<start>-<end>` for each index whose record passes the country filter
(case-insensitively, requiring an entry at that index) and whose two
endpoints pass the IPv4 validator, and no line for any other index.  On
the three-record document with one Norway record and filter `norway` in
any casing, exactly one range is written and the count is 1. -/
theorem claim_C1 :
    (∀ (content filter prior : String),
      extract_all content "\"start_ip\"" ≠ [] →
      (extract_all content "\"start_ip\"").length =
        (extract_all content "\"end_ip\"").length →
      (build_list_from_asn_json true content true prior filter).lines =
        (List.range (extract_all content "\"start_ip\"").length).filterMap
          (asn_claim_keep (extract_all content "\"start_ip\"")
            (extract_all content "\"end_ip\"")
            (extract_all content "\"country_name\"") filter) ∧
      (build_list_from_asn_json true content true prior filter).count =
        ((List.range (extract_all content "\"start_ip\"").length).filterMap
          (asn_claim_keep (extract_all content "\"start_ip\"")
            (extract_all content "\"end_ip\"")
            (extract_all content "\"country_name\"") filter)).length) ∧
    (build_list_from_asn_json true norwayDoc true "" "norway").count = 1 ∧
    (build_list_from_asn_json true norwayDoc true "" "norway").lines =
      ["2.2.2.0-2.2.2.255"] ∧
    (build_list_from_asn_json true norwayDoc true "" "NoRwAy").count = 1 ∧
    (build_list_from_asn_json true norwayDoc true "" "NORWAY").count = 1 := by
  refine ⟨?_, by decide, by decide, by decide, by decide⟩
  intro content filter prior hne hlen
  rw [build_list_from_asn_json_valid content prior filter hne hlen]
  have hfun : (fun k => asn_step (extract_all content "\"end_ip\"")
        (extract_all content "\"country_name\"") filter
        ((extract_all content "\"start_ip\"").getD k "") (0 + k))
      = asn_claim_keep (extract_all content "\"start_ip\"")
          (extract_all content "\"end_ip\"")
          (extract_all content "\"country_name\"") filter := by
    funext k
    rw [Nat.zero_add, asn_claim_keep_eq]
  rw [asn_loop_eq, hfun]
  exact ⟨rfl, rfl⟩

set_option maxRecDepth 100000 in
/-- Witness for claim C1: the general emission equation applied to the
Norway document. -/
theorem claim_C1_witness :
    (build_list_from_asn_json true norwayDoc true "" "norway").lines =
      (List.range (extract_all norwayDoc "\"start_ip\"").length).filterMap
        (asn_claim_keep (extract_all norwayDoc "\"start_ip\"")
          (extract_all norwayDoc "\"end_ip\"")
          (extract_all norwayDoc "\"country_name\"") "norway") :=
  (claim_C1.1 norwayDoc "norway" "" (by decide) (by decide)).1

/-- Claim C6: `build_list_from_asn_json` returns `ok=false` exactly when a
file fails to open, the start sequence is empty, the start and end
sequences differ in length, or zero range lines survive filtering; it
returns `ok=true` exactly when at least one range line is written, and the
zero-match case is a soft failure (a returned value, not a crash). -/
theorem claim_C6 :
    ∀ (inOpen outOpen : Bool) (content prior filter : String),
      ((build_list_from_asn_json inOpen content outOpen prior filter).ok = false ↔
        (inOpen = false ∨ outOpen = false ∨
          extract_all content "\"start_ip\"" = [] ∨
          (extract_all content "\"start_ip\"").length ≠
            (extract_all content "\"end_ip\"").length ∨
          (build_list_from_asn_json inOpen content outOpen prior filter).count = 0)) ∧
      ((build_list_from_asn_json inOpen content outOpen prior filter).ok = true ↔
        (build_list_from_asn_json inOpen content outOpen prior filter).lines ≠ []) := by
  intro inOpen outOpen content prior filter
  cases inOpen with
  | false => simp [build_list_from_asn_json]
  | true =>
    by_cases hval : extract_all content "\"start_ip\"" = [] ∨
        extract_all content "\"end_ip\"" = [] ∨
        (extract_all content "\"start_ip\"").length ≠
          (extract_all content "\"end_ip\"").length
    · have hrw : build_list_from_asn_json true content outOpen prior filter =
          ⟨false, 0, [], false, prior⟩ := by
        simp only [build_list_from_asn_json]
        rw [if_neg (by decide : ¬(true = false)), if_pos hval]
      rw [hrw]
      constructor
      · simp
      · simp
    · push_neg at hval
      obtain ⟨hne, hends, heq⟩ := hval
      cases outOpen with
      | false =>
        have hrw : build_list_from_asn_json true content false prior filter =
            ⟨false, 0, [], true, prior⟩ := by
          simp only [build_list_from_asn_json]
          rw [if_neg (by decide : ¬(true = false)),
            if_neg (by push_neg; exact ⟨hne, hends, heq⟩), if_pos trivial]
        rw [hrw]
        constructor
        · simp
        · simp
      | true =>
        rw [build_list_from_asn_json_valid content prior filter hne heq]
        constructor
        · simp only [decide_eq_false_iff_not, Nat.not_lt, Nat.le_zero, hne, heq]
          simp
        · simp only [decide_eq_true_eq]
          rw [List.length_pos]

/-- Witness for claim C6: on a document whose `start_ip` and `end_ip`
counts differ, the extractor reports failure. -/
theorem claim_C6_witness :
    (build_list_from_asn_json true mismatchDoc true "" "").ok = false :=
  (claim_C6 true true mismatchDoc "" "").1.mpr (by decide)

/-- Claim C10: when validation fails (empty start sequence or differing
lengths), `build_list_from_asn_json` returns `false` without reaching the
truncating open of the list file, so the prior list-file content is left
unchanged. -/
theorem claim_C10 :
    ∀ (content prior filter : String) (outOpen : Bool),
      (extract_all content "\"start_ip\"" = [] ∨
        (extract_all content "\"start_ip\"").length ≠
          (extract_all content "\"end_ip\"").length) →
      (build_list_from_asn_json true content outOpen prior filter).ok = false ∧
      (build_list_from_asn_json true content outOpen prior filter).openAttempted = false ∧
      (build_list_from_asn_json true content outOpen prior filter).listFile = prior := by
  intro content prior filter outOpen h
  have hval : extract_all content "\"start_ip\"" = [] ∨
      extract_all content "\"end_ip\"" = [] ∨
      (extract_all content "\"start_ip\"").length ≠
        (extract_all content "\"end_ip\"").length := by
    rcases h with h | h
    · exact Or.inl h
    · exact Or.inr (Or.inr h)
  have hrw : build_list_from_asn_json true content outOpen prior filter =
      ⟨false, 0, [], false, prior⟩ := by
    simp only [build_list_from_asn_json]
    rw [if_neg (by decide : ¬(true = false)), if_pos hval]
  rw [hrw]
  exact ⟨rfl, rfl, rfl⟩

/-- Witness for claim C10: on the mismatched document the list file keeps
its prior content even though the output would have opened. -/
theorem claim_C10_witness :
    (build_list_from_asn_json true mismatchDoc true "OLD" "").ok = false ∧
    (build_list_from_asn_json true mismatchDoc true "OLD" "").openAttempted = false ∧
    (build_list_from_asn_json true mismatchDoc true "OLD" "").listFile = "OLD" :=
  claim_C10 mismatchDoc "OLD" "" true (by decide)

/-! ### Title extraction (`extract_title`, `parse_zgrab_titles`) -/

/-- Worker for `str_find`: first offset at which `needle` is a prefix. -/
def find_from_aux (needle : List Char) : List Char → Nat → Option Nat
  | [], i => if needle.isPrefixOf [] then some i else none
  | c :: rest, i =>
    if needle.isPrefixOf (c :: rest) then some i
    else find_from_aux needle rest (i + 1)

/-- `std::string::find(needle, start)`: position of the first occurrence
at or after `start`, `none` for `npos`. -/
def str_find (hay needle : List Char) (start : Nat) : Option Nat :=
  (find_from_aux needle (hay.drop start) 0).map (fun k => start + k)

/-- `extract_title` from the source: case-insensitive search for `<title`,
then the next `>`, then the next `</title>`; the title is the trimmed
substring of the original body between them, with fallback
`"No title found"`. -/
def extract_title (html : String) : String :=
  match str_find (to_lower html).data ("<title".data) 0 with
  | none => "No title found"
  | some start =>
    match str_find (to_lower html).data ['>'] start with
    | none => "No title found"
    | some gt =>
      match str_find (to_lower html).data ("</title>".data) gt with
      | none => "No title found"
      | some e =>
        if e ≤ gt then "No title found"
        else
          let title := trim (String.mk ((html.data.drop (gt + 1)).take (e - gt - 1)))
          if title = "" then "No title found" else title

/-- The per-line body of `parse_zgrab_titles`: skip a line with no `ip`
field, report a missing `body`, otherwise extract the title. -/
def zgrab_step (line : String) : Option String :=
  match extract_json_string_value line "\"ip\"" with
  | none => none
  | some ip =>
    match extract_json_string_value line "\"body\"" with
    | none => some ("IP: " ++ ip ++ " - No response body found")
    | some body => some ("IP: " ++ ip ++ " - Title: " ++ extract_title body)

/-- The `while (std::getline(in, line))` loop of `parse_zgrab_titles`. -/
def zgrab_loop : List String → List String
  | [] => []
  | line :: rest =>
    match zgrab_step line with
    | none => zgrab_loop rest
    | some o => o :: zgrab_loop rest

/-- `parse_zgrab_titles` from the source: `none` models the `false` return
when the grabber output cannot be opened; otherwise the lines appended to
the shared report sink, in arrival order. -/
def parse_zgrab_titles (inOpen : Bool) (lines : List String) : Option (List String) :=
  if inOpen = false then none
  else some (zgrab_loop lines)

/-- Claim C3: `extract_title` returns `"No title found"` when the
case-insensitive `<title` search fails, or no `>` follows it, or no
`</title>` follows that `>`, or the closing tag precedes/equals the
content start, or the substring trims to empty; otherwise the trimmed
substring of the original body (original casing) between the `>` and the
closing tag.  The spec example yields `"Hello"`. -/
theorem claim_C3 :
    (∀ html : String, str_find (to_lower html).data ("<title".data) 0 = none →
      extract_title html = "No title found") ∧
    (∀ (html : String) (s : Nat),
      str_find (to_lower html).data ("<title".data) 0 = some s →
      str_find (to_lower html).data ['>'] s = none →
      extract_title html = "No title found") ∧
    (∀ (html : String) (s g : Nat),
      str_find (to_lower html).data ("<title".data) 0 = some s →
      str_find (to_lower html).data ['>'] s = some g →
      str_find (to_lower html).data ("</title>".data) g = none →
      extract_title html = "No title found") ∧
    (∀ (html : String) (s g e : Nat),
      str_find (to_lower html).data ("<title".data) 0 = some s →
      str_find (to_lower html).data ['>'] s = some g →
      str_find (to_lower html).data ("</title>".data) g = some e →
      e ≤ g →
      extract_title html = "No title found") ∧
    (∀ (html : String) (s g e : Nat),
      str_find (to_lower html).data ("<title".data) 0 = some s →
      str_find (to_lower html).data ['>'] s = some g →
      str_find (to_lower html).data ("</title>".data) g = some e →
      g < e →
      trim (String.mk ((html.data.drop (g + 1)).take (e - g - 1))) = "" →
      extract_title html = "No title found") ∧
    (∀ (html : String) (s g e : Nat),
      str_find (to_lower html).data ("<title".data) 0 = some s →
      str_find (to_lower html).data ['>'] s = some g →
      str_find (to_lower html).data ("</title>".data) g = some e →
      g < e →
      trim (String.mk ((html.data.drop (g + 1)).take (e - g - 1))) ≠ "" →
      extract_title html =
        trim (String.mk ((html.data.drop (g + 1)).take (e - g - 1)))) ∧
    extract_title "<HTML><Title> Hello </Title></html>" = "Hello" := by
  refine ⟨?_, ?_, ?_, ?_, ?_, ?_, by decide⟩
  · intro html h
    simp only [extract_title, h]
  · intro html s h1 h2
    simp only [extract_title, h1, h2]
  · intro html s g h1 h2 h3
    simp only [extract_title, h1, h2, h3]
  · intro html s g e h1 h2 h3 h4
    simp only [extract_title, h1, h2, h3]
    rw [if_pos h4]
  · intro html s g e h1 h2 h3 h4 h5
    simp only [extract_title, h1, h2, h3]
    rw [if_neg (by omega : ¬ e ≤ g)]
    simp [h5]
  · intro html s g e h1 h2 h3 h4 h5
    simp only [extract_title, h1, h2, h3]
    rw [if_neg (by omega : ¬ e ≤ g)]
    simp [h5]

/-- Witness for claim C3: the positive branch applied to the
specification's example body, with the three search positions computed. -/
theorem claim_C3_witness :
    extract_title "<HTML><Title> Hello </Title></html>" =
      trim (String.mk ((("<HTML><Title> Hello </Title></html>").data.drop (12 + 1)).take
        (20 - 12 - 1))) :=
  claim_C3.2.2.2.2.2.1 "<HTML><Title> Hello </Title></html>" 6 12 20
    (by decide) (by decide) (by decide) (by decide) (by decide)

theorem zgrab_loop_eq (lines : List String) :
    zgrab_loop lines = lines.filterMap zgrab_step := by
  induction lines with
  | nil => rfl
  | cons l rest ih =>
    simp only [zgrab_loop, List.filterMap_cons, ih]
    cases zgrab_step l <;> rfl

set_option maxRecDepth 100000 in
/-- Claim C8: per line of grabber output, `parse_zgrab_titles` emits
nothing when no `ip` field is extractable, exactly the no-body line when
an `ip` is extracted but no `body`, and exactly the title line (with
`extract_title`) when both are; one output line per record with an `ip`,
in arrival order; an unopenable line is never produced. -/
theorem claim_C8 :
    (∀ lines : List String,
      parse_zgrab_titles true lines = some (lines.filterMap zgrab_step)) ∧
    (∀ lines : List String,
      (zgrab_loop lines).length =
        (lines.filter (fun l => (extract_json_string_value l "\"ip\"").isSome)).length) ∧
    (∀ line : String, extract_json_string_value line "\"ip\"" = none →
      zgrab_step line = none) ∧
    (∀ line ip : String, extract_json_string_value line "\"ip\"" = some ip →
      extract_json_string_value line "\"body\"" = none →
      zgrab_step line = some ("IP: " ++ ip ++ " - No response body found")) ∧
    (∀ line ip bodyv : String, extract_json_string_value line "\"ip\"" = some ip →
      extract_json_string_value line "\"body\"" = some bodyv →
      zgrab_step line = some ("IP: " ++ ip ++ " - Title: " ++ extract_title bodyv)) ∧
    parse_zgrab_titles true
      ["\x7b\"status\":\"error\"\x7d", "\x7b\"ip\":\"9.9.9.9\"\x7d",
       "\x7b\"ip\":\"8.8.8.8\",\"body\":\"<title>Hi</title>\"\x7d"] =
      some ["IP: 9.9.9.9 - No response body found", "IP: 8.8.8.8 - Title: Hi"] := by
  refine ⟨?_, ?_, ?_, ?_, ?_, by decide⟩
  · intro lines
    unfold parse_zgrab_titles
    rw [if_neg (by decide : ¬(true = false)), zgrab_loop_eq]
  · intro lines
    induction lines with
    | nil => rfl
    | cons l rest ih =>
      simp only [zgrab_loop, List.filter_cons]
      cases h : extract_json_string_value l "\"ip\"" with
      | none =>
        have hstep : zgrab_step l = none := by simp only [zgrab_step, h]
        rw [hstep]
        simp [h, ih]
      | some ip =>
        have hsome : ∃ o, zgrab_step l = some o := by
          simp only [zgrab_step, h]
          cases extract_json_string_value l "\"body\"" with
          | none => exact ⟨_, rfl⟩
          | some b => exact ⟨_, rfl⟩
        obtain ⟨o, hstep⟩ := hsome
        rw [hstep]
        simp [h, ih]
  · intro line h
    simp only [zgrab_step, h]
  · intro line ip h hb
    simp only [zgrab_step, h, hb]
  · intro line ip bodyv h hb
    simp only [zgrab_step, h, hb]

/-- Witness for claim C8: the no-body rule applied to a concrete grab
record. -/
theorem claim_C8_witness :
    zgrab_step "\x7b\"ip\":\"9.9.9.9\"\x7d" =
      some "IP: 9.9.9.9 - No response body found" :=
  claim_C8.2.2.2.1 "\x7b\"ip\":\"9.9.9.9\"\x7d" "9.9.9.9" (by decide) (by decide)

/-! ### The `main` driver, at event granularity

`main` is modelled as a trace of the externally observable steps it takes
after argument parsing succeeds, in program order, together with its exit
code.  Branches are driven by the same conditions the source tests;
outcomes of the file-system probes and helper calls are oracle
parameters.  The pipeline after a ready list file is abstracted as a
single event with parameter exit code. -/

/-- Observable steps of `main`, in source order:
`createDirs` is the `fs::create_directories` pair; `ensureMasscan` and
`ensureZgrab` are the tool-acquisition calls (PATH probing via
`fs::exists`, possibly clone and build); `asnBuild`, `listCopy` and
`singleWrite` are the list-preparation calls; the `report*` events are the
diagnostics printed before an error exit; `pipelineRest` abstracts the
scan/grab/report stages. -/
inductive MainEv
  | createDirs
  | ensureMasscan
  | ensureZgrab
  | reportConfigError
  | reportListNotFound
  | asnBuild
  | listCopy
  | singleWrite
  | reportListFail
  | pipelineRest
  deriving DecidableEq, Repr

/-- Whether an event attempts file I/O.  `createDirs` creates directories;
the two `ensure*` steps probe the file system (and may clone/build); the
list-preparation steps and the remaining pipeline read and write files;
the diagnostics only write to the error stream. -/
def ev_is_file_io : MainEv → Bool
  | MainEv.createDirs => true
  | MainEv.ensureMasscan => true
  | MainEv.ensureZgrab => true
  | MainEv.asnBuild => true
  | MainEv.listCopy => true
  | MainEv.singleWrite => true
  | MainEv.pipelineRest => true
  | MainEv.reportConfigError => false
  | MainEv.reportListNotFound => false
  | MainEv.reportListFail => false

/-- Trace and exit code of `main` after successful argument parsing.
`inputExists` and `inputIsJson` describe `fs::exists(input)` and the
`.json` extension test; `masscanOk`, `zgrabOk` are the tool-setup
outcomes; `asnOk`, `writeOk` the list-preparation outcomes; `restExit`
the exit code of the abstracted remaining pipeline.  (`fs::copy_file` in
list mode can throw; that exceptional exit is out of scope here.) -/
def main_run (inputExists inputIsJson listMode : Bool) (filter : String)
    (masscanOk zgrabOk asnOk writeOk : Bool) (restExit : Nat) :
    List MainEv × Nat :=
  if masscanOk = false then ([MainEv.createDirs, MainEv.ensureMasscan], 1)
  else if zgrabOk = false then
    ([MainEv.createDirs, MainEv.ensureMasscan, MainEv.ensureZgrab], 1)
  else
    if inputExists then
      if inputIsJson then
        if asnOk then
          ([MainEv.createDirs, MainEv.ensureMasscan, MainEv.ensureZgrab,
            MainEv.asnBuild, MainEv.pipelineRest], restExit)
        else
          ([MainEv.createDirs, MainEv.ensureMasscan, MainEv.ensureZgrab,
            MainEv.asnBuild, MainEv.reportListFail], 1)
      else if filter ≠ "" then
        ([MainEv.createDirs, MainEv.ensureMasscan, MainEv.ensureZgrab,
          MainEv.reportConfigError], 1)
      else if listMode then
        ([MainEv.createDirs, MainEv.ensureMasscan, MainEv.ensureZgrab,
          MainEv.listCopy, MainEv.pipelineRest], restExit)
      else if writeOk then
        ([MainEv.createDirs, MainEv.ensureMasscan, MainEv.ensureZgrab,
          MainEv.singleWrite, MainEv.pipelineRest], restExit)
      else
        ([MainEv.createDirs, MainEv.ensureMasscan, MainEv.ensureZgrab,
          MainEv.singleWrite, MainEv.reportListFail], 1)
    else
      if listMode then
        ([MainEv.createDirs, MainEv.ensureMasscan, MainEv.ensureZgrab,
          MainEv.reportListNotFound], 1)
      else if filter ≠ "" then
        ([MainEv.createDirs, MainEv.ensureMasscan, MainEv.ensureZgrab,
          MainEv.reportConfigError], 1)
      else if writeOk then
        ([MainEv.createDirs, MainEv.ensureMasscan, MainEv.ensureZgrab,
          MainEv.singleWrite, MainEv.pipelineRest], restExit)
      else
        ([MainEv.createDirs, MainEv.ensureMasscan, MainEv.ensureZgrab,
          MainEv.singleWrite, MainEv.reportListFail], 1)

/-- Counterexample to claim C4 as stated: with an existing non-JSON input,
a country filter, and both tools available, the run exits non-zero with
the configuration error, but the error is NOT reported before any file
I/O — directory creation and tool discovery precede it, so no
configuration error occurs within the I/O-free prefix of the trace. -/
theorem claim_C4_counterexample :
    ¬ ((main_run true false false "norway" true true true true 0).2 ≠ 0 ∧
      MainEv.reportConfigError ∈
        (main_run true false false "norway" true true true true 0).1.takeWhile
          (fun e => ! ev_is_file_io e)) := by
  decide

/-- Claim C4, amended: with a non-empty country filter and an input that
is not an existing `.json` document, `main` always exits non-zero; and
when tool setup succeeds and it is not the missing-list-file case, the
country configuration error is reported, with no list-building file I/O
attempted — but only after the workspace directory creation and tool
discovery, which do perform file I/O. -/
theorem claim_C4 :
    ∀ (inputExists inputIsJson listMode : Bool) (filter : String)
      (masscanOk zgrabOk asnOk writeOk : Bool) (restExit : Nat),
      filter ≠ "" →
      ¬(inputExists = true ∧ inputIsJson = true) →
      (main_run inputExists inputIsJson listMode filter
        masscanOk zgrabOk asnOk writeOk restExit).2 ≠ 0 ∧
      (masscanOk = true → zgrabOk = true →
        ¬(inputExists = false ∧ listMode = true) →
        MainEv.reportConfigError ∈ (main_run inputExists inputIsJson listMode filter
          masscanOk zgrabOk asnOk writeOk restExit).1 ∧
        ∀ e ∈ (main_run inputExists inputIsJson listMode filter
            masscanOk zgrabOk asnOk writeOk restExit).1,
          ev_is_file_io e = true →
          (e = MainEv.createDirs ∨ e = MainEv.ensureMasscan ∨ e = MainEv.ensureZgrab)) := by
  intro iE iJ lM filter mOk zOk aOk wOk rE hf hnj
  cases mOk with
  | false =>
    refine ⟨by simp [main_run], ?_⟩
    intro hm
    cases hm
  | true =>
    cases zOk with
    | false =>
      refine ⟨by simp [main_run], ?_⟩
      intro _ hz
      cases hz
    | true =>
      cases iE with
      | true =>
        cases iJ with
        | true => exact absurd ⟨rfl, rfl⟩ hnj
        | false =>
          have hrw : main_run true false lM filter true true aOk wOk rE =
              ([MainEv.createDirs, MainEv.ensureMasscan, MainEv.ensureZgrab,
                MainEv.reportConfigError], 1) := by
            simp [main_run, hf]
          rw [hrw]
          exact ⟨by decide, fun _ _ _ => ⟨by decide, by decide⟩⟩
      | false =>
        cases lM with
        | true =>
          have hrw : main_run false iJ true filter true true aOk wOk rE =
              ([MainEv.createDirs, MainEv.ensureMasscan, MainEv.ensureZgrab,
                MainEv.reportListNotFound], 1) := by
            simp [main_run]
          rw [hrw]
          refine ⟨by decide, ?_⟩
          intro _ _ hnl
          exact absurd ⟨rfl, rfl⟩ hnl
        | false =>
          have hrw : main_run false iJ false filter true true aOk wOk rE =
              ([MainEv.createDirs, MainEv.ensureMasscan, MainEv.ensureZgrab,
                MainEv.reportConfigError], 1) := by
            simp [main_run, hf]
          rw [hrw]
          exact ⟨by decide, fun _ _ _ => ⟨by decide, by decide⟩⟩

/-- Witness for claim C4 (amended) at a concrete configuration: existing
non-JSON input, filter `norway`, tools available. -/
theorem claim_C4_witness :
    (main_run true false false "norway" true true true true 0).2 ≠ 0 ∧
    MainEv.reportConfigError ∈
      (main_run true false false "norway" true true true true 0).1 := by
  have h := claim_C4 true false false "norway" true true true true 0
    (by decide) (by decide)
  exact ⟨h.1, (h.2 rfl rfl (by decide)).1⟩

end WebScanner
